import Mathlib

/-!
# Verification of the normalize-and-upsert ETL pipelines

Shallow embedding of the two loader scripts `brk-cfs-load.py` and
`brk-ratios-load.py`. Python/JSON values are modelled by the inductive type
`Value`; Python dicts (the provider's raw records and the normalized rows,
which the scripts build as dict literals) are modelled by `Entries`,
an association list of string keys to values, keys unique as in a Python dict.
Python `float` values are carried as rationals: the pipelines never perform
floating-point arithmetic, they only convert and move numbers, so the carrier
only has to distinguish values, not reproduce rounding.
Operations that can raise in Python are modelled with an explicit failure
channel (`Option`/`Except`); a total Lean function models a Python function
that cannot raise on the corresponding inputs.
-/

set_option autoImplicit false

/-- A Python float value, carried exactly as `mant * 10 ^ exp10`. The
pipelines only convert and move numbers — no floating-point arithmetic ever
happens — so the carrier only has to distinguish values; two `PyFloat`s
produced by the same computation are equal exactly when the Python floats
are. (Binary rounding and `inf`/`nan` are not modelled.) -/
structure PyFloat where
  mant : Int
  exp10 : Int
deriving DecidableEq

/-- The Python float with the value of an integer. -/
def PyFloat.ofInt (n : Int) : PyFloat := ⟨n, 0⟩

mutual

/-- A Python/JSON value as handled by the loader scripts: `None`, booleans,
ints, floats, strings, lists and dicts. -/
inductive Value where
  | null : Value
  | bool : Bool → Value
  | int : Int → Value
  | float : PyFloat → Value
  | str : String → Value
  | list : ValueList → Value
  | obj : Entries → Value

/-- A list of `Value`s (the payload of `Value.list`). -/
inductive ValueList where
  | nil : ValueList
  | cons : Value → ValueList → ValueList

/-- A Python dict with string keys, as an association list (keys unique,
insertion order preserved, as in a Python dict literal). -/
inductive Entries where
  | nil : Entries
  | cons : String → Value → Entries → Entries

end

deriving instance DecidableEq for Value, ValueList, Entries

deriving instance DecidableEq for Except

/-- The elements of a `ValueList` as a Lean list. -/
def ValueList.toList : ValueList → List Value
  | .nil => []
  | .cons v tl => v :: tl.toList

/-- Python `dict` lookup distinguishing "key absent" (`none`) from
"key present with value `None`" (`some .null`). -/
def Entries.find? : Entries → String → Option Value
  | .nil, _ => none
  | .cons key v tl, k => if key = k then some v else tl.find? k

/-- Python `row.get(k)`: the stored value, or `None` when the key is absent. -/
def Entries.get (e : Entries) (k : String) : Value :=
  (e.find? k).getD .null

/-- Python `row.get(k, default)`. -/
def Entries.getD (e : Entries) (k : String) (d : Value) : Value :=
  (e.find? k).getD d

/-- Build an `Entries` dict from a list of key/value pairs (a dict literal). -/
def Entries.ofList : List (String × Value) → Entries
  | [] => .nil
  | (k, v) :: tl => .cons k v (Entries.ofList tl)

/-- Python truthiness (`bool(v)`) for the values the scripts test with
`if not s` and with `and` inside the row filter. -/
def pyTruthy : Value → Bool
  | .null => false
  | .bool b => b
  | .int n => n ≠ 0
  | .float q => q.mant ≠ 0
  | .str s => s ≠ ""
  | .list .nil => false
  | .list _ => true
  | .obj .nil => false
  | .obj _ => true

example : Entries.get (Entries.ofList [("symbol", .str "BRK-B")]) "symbol" = .str "BRK-B" := by decide
example : Entries.get (Entries.ofList [("symbol", .str "BRK-B")]) "date" = .null := by decide
example : pyTruthy (.int 0) = false := by decide

/-! ## Python numeric conversions

`float(value)` and `int(value)` as used by the scripts. String parsing models
the plain decimal literals Python accepts (optional surrounding whitespace,
optional sign, digits with an optional fractional part and exponent for
floats); `inf`/`nan` spellings, underscore digit grouping and non-decimal
bases are not modelled (no claim touches them), and neither is the
`OverflowError` that `float` raises on astronomically large ints. -/

/-- The numeric value of an all-digit character run. -/
def digitsVal (ds : List Char) : Nat :=
  ds.foldl (fun a c => a * 10 + (c.toNat - 48)) 0

/-- Parse a nonempty run of decimal digits. -/
def digitsOnly (ds : List Char) : Option Nat :=
  if ds ≠ [] ∧ ds.all Char.isDigit then some (digitsVal ds) else none

/-- Strip leading and trailing whitespace, as Python number parsing does
before reading the literal. -/
def trimChars (cs : List Char) : List Char :=
  ((cs.dropWhile Char.isWhitespace).reverse.dropWhile Char.isWhitespace).reverse

/-- Optional sign then decimal digits, as an integer. -/
def signedDigits (cs : List Char) : Option Int :=
  match cs with
  | '+' :: ds => (digitsOnly ds).map (fun n => (n : Int))
  | '-' :: ds => (digitsOnly ds).map (fun n => -(n : Int))
  | ds => (digitsOnly ds).map (fun n => (n : Int))

/-- Python `int(s)` on a string: optional surrounding whitespace, optional
sign, then decimal digits; anything else raises `ValueError` (`none`). -/
def parseIntLit (s : String) : Option Int :=
  signedDigits (trimChars s.data)

/-- The unsigned mantissa of a Python float literal: digits with an optional
`.` and fractional digits, at least one digit overall. The result pairs the
digit string's value with the number of fractional digits. -/
def mantissaVal (cs : List Char) : Option (Nat × Nat) :=
  let ip := cs.takeWhile Char.isDigit
  match cs.dropWhile Char.isDigit with
  | [] => (digitsOnly ip).map (fun n => (n, 0))
  | '.' :: fp =>
    if fp.all Char.isDigit ∧ (ip ≠ [] ∨ fp ≠ []) then
      some (digitsVal (ip ++ fp), fp.length)
    else none
  | _ => none

/-- An unsigned Python float literal: mantissa with optional `e`/`E`
exponent, yielding `mant * 10 ^ exp10`. -/
def floatCore (cs : List Char) : Option PyFloat :=
  let mant := cs.takeWhile (fun c => !(c = 'e' || c = 'E'))
  match cs.dropWhile (fun c => !(c = 'e' || c = 'E')) with
  | [] => (mantissaVal mant).map (fun p => ⟨(p.1 : Int), -(p.2 : Int)⟩)
  | _ :: ecs => do
    let p ← mantissaVal mant
    let e ← signedDigits ecs
    some ⟨(p.1 : Int), e - (p.2 : Int)⟩

/-- Python `float(s)` on a string: optional surrounding whitespace, optional
sign, then a decimal float literal; anything else raises `ValueError` (`none`). -/
def parseFloatLit (s : String) : Option PyFloat :=
  match trimChars s.data with
  | '+' :: cs => floatCore cs
  | '-' :: cs => (floatCore cs).map (fun f => ⟨-f.mant, f.exp10⟩)
  | cs => floatCore cs

/-- The integer value of a Python float, truncated toward zero, as Python
`int(float)` rounds. -/
def PyFloat.trunc (f : PyFloat) : Int :=
  if 0 ≤ f.exp10 then f.mant * (10 : Int) ^ f.exp10.toNat
  else Int.tdiv f.mant ((10 : Int) ^ (-f.exp10).toNat)

/-- The exception classes the numeric conversions can raise. This matters
because `safe_float`/`safe_int` catch only `(ValueError, TypeError)`:
an `OverflowError` passes through them uncaught. -/
inductive PyErr where
  | valueError : PyErr
  | typeError : PyErr
  | overflowError : PyErr
deriving DecidableEq

/-- The smallest natural number `float()` cannot convert: an integer `n`
with `|n| ≥ 2^1024 - 2^970` rounds (to nearest, ties to even) to `2^1024`,
which exceeds the largest finite double `2^1024 - 2^971`, so CPython raises
`OverflowError`; every smaller `|n|` rounds to a finite double.
(`Nat.shiftLeft 1 k` is `2^k`, written so that it evaluates fast.) -/
def floatOverflowBound : Nat := Nat.shiftLeft 1 1024 - Nat.shiftLeft 1 970

/-- Whether Python `float(n)` on an int raises `OverflowError`. -/
def intOverflowsFloat (n : Int) : Bool :=
  floatOverflowBound ≤ n.natAbs

/-- Whether evaluating `float(v)` raises the `OverflowError` that
`safe_float` does not catch: exactly on over-range ints. (`float` on an
over-range numeric *string* yields `inf` without raising, and the float
carrier holds no infinities.) -/
def floatCoercionOverflows : Value → Bool
  | .int n => intOverflowsFloat n
  | _ => false

/-- Python `float(value)` with its exception classes: `TypeError` for
`None` and containers, `ValueError` for unparseable strings, and
`OverflowError` for ints too large for a double. Note `float(True) = 1.0` —
Python `bool` is a subclass of `int`. -/
def pyFloatE : Value → Except PyErr PyFloat
  | .null => .error .typeError
  | .bool b => .ok (.ofInt (if b then 1 else 0))
  | .int n => if intOverflowsFloat n then .error .overflowError else .ok (.ofInt n)
  | .float q => .ok q
  | .str s =>
    match parseFloatLit s with
    | some f => .ok f
    | none => .error .valueError
  | .list _ => .error .typeError
  | .obj _ => .error .typeError

/-- Python `int(value)` with its exception classes: `TypeError` for `None`
and containers, `ValueError` for unparseable strings. `int` of a float
truncates toward zero; `int(True) = 1`. (Python ints are unbounded, so
`int()` itself never overflows; its `OverflowError` on `float('inf')` is
outside the float carrier, which holds no infinities.) -/
def pyIntE : Value → Except PyErr Int
  | .null => .error .typeError
  | .bool b => .ok (if b then 1 else 0)
  | .int n => .ok n
  | .float q => .ok q.trunc
  | .str s =>
    match parseIntLit s with
    | some n => .ok n
    | none => .error .valueError
  | .list _ => .error .typeError
  | .obj _ => .error .typeError

/-- Python `int(value)` at a call site that catches nothing (the bare
`int(...)` in the cash-flow pipeline): only success matters, any error
class raises. -/
def pyInt? (v : Value) : Option Int :=
  (pyIntE v).toOption

example : parseFloatLit "1.5" = some ⟨15, -1⟩ := by decide
example : parseFloatLit "" = none := by decide
example : parseFloatLit "abc" = none := by decide
example : parseFloatLit " -2.5e1 " = some ⟨-25, 0⟩ := by decide
example : parseFloatLit ".5" = some ⟨5, -1⟩ := by decide
example : parseFloatLit "." = none := by decide
example : parseIntLit "2024" = some 2024 := by decide
example : parseIntLit "2024.0" = none := by decide
example : parseIntLit " -7 " = some (-7) := by decide
example : pyInt? (.float ⟨25, -1⟩) = some 2 := by decide
example : pyInt? (.float ⟨-25, -1⟩) = some (-2) := by decide
example : pyFloatE (.bool true) = .ok ⟨1, 0⟩ := by decide
example : pyFloatE (.int (Int.ofNat (Nat.shiftLeft 1 1024))) = .error .overflowError := by decide
example : pyFloatE (.int (Int.ofNat (Nat.shiftLeft 1 1023))) =
    .ok (.ofInt (Int.ofNat (Nat.shiftLeft 1 1023))) := by decide

/-! ## Python datetimes

A model of the `datetime` values and the two parsing routes used by
`to_timestamptz` in `brk-cfs-load.py`: `datetime.strptime(s, "%Y-%m-%d
%H:%M:%S")` and the fallback `datetime.fromisoformat(s)`. The `strptime`
model requires the zero-padded canonical widths (Python would also accept
1–2 digit month/day/time fields); the `fromisoformat` model covers the
documented extended ISO-8601 forms `YYYY-MM-DD[<sep>HH:MM[:SS][offset]]`
with separator `T` or space and offset `Z` or `±HH:MM`, without fractional
seconds or basic (dash-free) dates. The concrete strings the claims exercise
are all within both models. -/

/-- A Python `datetime`: calendar fields plus an optional UTC offset in
minutes (`none` for a naive datetime). -/
structure PyDateTime where
  year : Nat
  month : Nat
  day : Nat
  hour : Nat
  minute : Nat
  second : Nat
  tzOffsetMinutes : Option Int
deriving DecidableEq

/-- Gregorian leap year, as `datetime` validates days. -/
def isLeapYear (y : Nat) : Bool :=
  (y % 4 = 0 && y % 100 ≠ 0) || y % 400 = 0

/-- Days in a month, as `datetime` validates the day field. -/
def daysInMonth (y m : Nat) : Nat :=
  if m = 2 then (if isLeapYear y then 29 else 28)
  else if m = 4 ∨ m = 6 ∨ m = 9 ∨ m = 11 then 30
  else 31

/-- The date ranges `datetime` accepts (year 1–9999, valid calendar day). -/
def validDate (y m d : Nat) : Bool :=
  1 ≤ y && y ≤ 9999 && 1 ≤ m && m ≤ 12 && 1 ≤ d && d ≤ daysInMonth y m

/-- The time ranges `datetime` accepts. -/
def validTime (h mi s : Nat) : Bool :=
  h ≤ 23 && mi ≤ 59 && s ≤ 59

/-- Two decimal digits as a number. -/
def twoDigits (a b : Char) : Option Nat :=
  if a.isDigit && b.isDigit then some ((a.toNat - 48) * 10 + (b.toNat - 48)) else none

/-- Four decimal digits as a number. -/
def fourDigits (a b c d : Char) : Option Nat :=
  if a.isDigit && b.isDigit && c.isDigit && d.isDigit then
    some (((a.toNat - 48) * 10 + (b.toNat - 48)) * 100 + (c.toNat - 48) * 10 + (d.toNat - 48))
  else none

/-- `datetime.strptime(s, "%Y-%m-%d %H:%M:%S")`: exactly the shape
`YYYY-MM-DD HH:MM:SS`, validated; `none` models the raised `ValueError`. -/
def parse_strptime_ymd_hms (s : String) : Option PyDateTime :=
  match s.data with
  | [y1, y2, y3, y4, '-', m1, m2, '-', d1, d2, ' ', h1, h2, ':', n1, n2, ':', s1, s2] => do
    let y ← fourDigits y1 y2 y3 y4
    let mo ← twoDigits m1 m2
    let da ← twoDigits d1 d2
    let h ← twoDigits h1 h2
    let mi ← twoDigits n1 n2
    let se ← twoDigits s1 s2
    if validDate y mo da ∧ validTime h mi se then
      some ⟨y, mo, da, h, mi, se, none⟩
    else none
  | _ => none

/-- The time-and-offset tail of an ISO string: `HH:MM[:SS]` optionally
followed by `Z` or `±HH:MM`. -/
def parseIsoTime (cs : List Char) : Option (Nat × Nat × Nat × Option Int) :=
  match cs with
  | [h1, h2, ':', n1, n2] => do
    let h ← twoDigits h1 h2
    let mi ← twoDigits n1 n2
    some (h, mi, 0, none)
  | [h1, h2, ':', n1, n2, 'Z'] => do
    let h ← twoDigits h1 h2
    let mi ← twoDigits n1 n2
    some (h, mi, 0, some 0)
  | [h1, h2, ':', n1, n2, ':', s1, s2] => do
    let h ← twoDigits h1 h2
    let mi ← twoDigits n1 n2
    let se ← twoDigits s1 s2
    some (h, mi, se, none)
  | [h1, h2, ':', n1, n2, ':', s1, s2, 'Z'] => do
    let h ← twoDigits h1 h2
    let mi ← twoDigits n1 n2
    let se ← twoDigits s1 s2
    some (h, mi, se, some 0)
  | [h1, h2, ':', n1, n2, sign, o1, o2, ':', p1, p2] => do
    let h ← twoDigits h1 h2
    let mi ← twoDigits n1 n2
    let oh ← twoDigits o1 o2
    let om ← twoDigits p1 p2
    if (sign = '+' ∨ sign = '-') ∧ oh ≤ 23 ∧ om ≤ 59 then
      some (h, mi, 0, some ((if sign = '-' then -1 else 1) * ((oh : Int) * 60 + om)))
    else none
  | [h1, h2, ':', n1, n2, ':', s1, s2, sign, o1, o2, ':', p1, p2] => do
    let h ← twoDigits h1 h2
    let mi ← twoDigits n1 n2
    let se ← twoDigits s1 s2
    let oh ← twoDigits o1 o2
    let om ← twoDigits p1 p2
    if (sign = '+' ∨ sign = '-') ∧ oh ≤ 23 ∧ om ≤ 59 then
      some (h, mi, se, some ((if sign = '-' then -1 else 1) * ((oh : Int) * 60 + om)))
    else none
  | _ => none

/-- `datetime.fromisoformat(s)` on the documented extended ISO forms:
`YYYY-MM-DD`, optionally followed by a `T` or space separator and a time
with optional offset; `none` models the raised `ValueError`. -/
def parse_fromisoformat (s : String) : Option PyDateTime :=
  match s.data with
  | [y1, y2, y3, y4, '-', m1, m2, '-', d1, d2] => do
    let y ← fourDigits y1 y2 y3 y4
    let mo ← twoDigits m1 m2
    let da ← twoDigits d1 d2
    if validDate y mo da then some ⟨y, mo, da, 0, 0, 0, none⟩ else none
  | y1 :: y2 :: y3 :: y4 :: '-' :: m1 :: m2 :: '-' :: d1 :: d2 :: sep :: rest => do
    let y ← fourDigits y1 y2 y3 y4
    let mo ← twoDigits m1 m2
    let da ← twoDigits d1 d2
    let t ← parseIsoTime rest
    if (sep = 'T' ∨ sep = ' ') ∧ validDate y mo da ∧ validTime t.1 t.2.1 t.2.2.1 then
      some ⟨y, mo, da, t.1, t.2.1, t.2.2.1, t.2.2.2⟩
    else none
  | _ => none

/-- A natural number zero-padded to two digits. -/
def pad2 (n : Nat) : String :=
  if n < 10 then "0" ++ toString n else toString n

/-- A natural number zero-padded to four digits. -/
def pad4 (n : Nat) : String :=
  if n < 10 then "000" ++ toString n
  else if n < 100 then "00" ++ toString n
  else if n < 1000 then "0" ++ toString n
  else toString n

/-- `datetime.isoformat()`: `YYYY-MM-DDTHH:MM:SS` plus `±HH:MM` when the
datetime carries a UTC offset (microseconds are always zero here). -/
def isoformat (dt : PyDateTime) : String :=
  pad4 dt.year ++ "-" ++ pad2 dt.month ++ "-" ++ pad2 dt.day ++ "T" ++
    pad2 dt.hour ++ ":" ++ pad2 dt.minute ++ ":" ++ pad2 dt.second ++
    (match dt.tzOffsetMinutes with
     | none => ""
     | some o =>
       (if o < 0 then "-" else "+") ++ pad2 (o.natAbs / 60) ++ ":" ++ pad2 (o.natAbs % 60))

example : parse_strptime_ymd_hms "2024-05-01 00:00:00" = some ⟨2024, 5, 1, 0, 0, 0, none⟩ := by decide
example : parse_strptime_ymd_hms "2024-05-01T00:00:00" = none := by decide
example : parse_strptime_ymd_hms "2024-02-30 00:00:00" = none := by decide
example : parse_fromisoformat "2024-05-01T00:00:00+00:00" = some ⟨2024, 5, 1, 0, 0, 0, some 0⟩ := by decide
example : parse_fromisoformat "2024-05-01" = some ⟨2024, 5, 1, 0, 0, 0, none⟩ := by decide
example : parse_fromisoformat "not-a-date" = none := by decide
example : isoformat ⟨2024, 5, 1, 0, 0, 0, none⟩ = "2024-05-01T00:00:00" := by decide
example : isoformat ⟨2024, 5, 1, 0, 0, 0, some 0⟩ = "2024-05-01T00:00:00+00:00" := by decide
example : isoformat ⟨2024, 5, 1, 9, 30, 5, some (-330)⟩ = "2024-05-01T09:30:05-05:30" := by decide

/-- Python `str(value)`, as applied by `to_timestamptz` before parsing.
Container and float reprs are abbreviated markers: both the real Python repr
and the marker are rejected by both date parsers, so every downstream result
coincides. (A bare int's repr could only matter for dash-free ISO dates,
which are outside the `fromisoformat` model.) -/
def pyStr : Value → String
  | .null => "None"
  | .bool b => if b then "True" else "False"
  | .int n => toString n
  | .float _ => "float repr"
  | .str s => s
  | .list _ => "list repr"
  | .obj _ => "dict repr"

/-- A `None`-or-float optional as the value stored in a row dict. -/
def optFloatVal : Option PyFloat → Value
  | some f => .float f
  | none => .null

/-- A `None`-or-int optional as the value stored in a row dict. -/
def optIntVal : Option Int → Value
  | some n => .int n
  | none => .null

/-! ## The cash-flow pipeline (`brk-cfs-load.py`) -/

namespace Cfs

/-- `to_timestamptz` from `brk-cfs-load.py`: falsy input gives `None`;
otherwise `strptime` with format `%Y-%m-%d %H:%M:%S` is tried and, on
`ValueError`, `fromisoformat`; if both fail the result is `None`. -/
def to_timestamptz (s : Value) : Option PyDateTime :=
  if pyTruthy s then
    match parse_strptime_ymd_hms (pyStr s) with
    | some dt => some dt
    | none => parse_fromisoformat (pyStr s)
  else none

/-- `normalize_row` from `brk-cfs-load.py`. The only operation in its body
that can raise is the bare `int(row["fiscalYear"])`, guarded only against
`None` and `""`; `.error` models that raised exception (a `ValueError` for
non-numeric strings, a `TypeError` for containers). Everything else — the
`.get` lookups and `to_timestamptz` — is total. -/
def normalize_row (row : Entries) : Except String Entries :=
  match
    (if ¬(row.get "fiscalYear" = .null ∨ row.get "fiscalYear" = .str "") then
      match pyInt? (row.get "fiscalYear") with
      | some n => Except.ok (Value.int n)
      | none => Except.error "ValueError"
    else Except.ok Value.null : Except String Value)
  with
  | .error e => .error e
  | .ok fiscal_year =>
    .ok (Entries.ofList
      [("symbol", row.get "symbol"),
       ("date", row.get "date"),
       ("cik", row.get "cik"),
       ("reported_currency", row.get "reportedCurrency"),
       ("filing_date", row.get "filingDate"),
       ("accepted_at",
         match to_timestamptz (row.get "acceptedDate") with
         | some dt => .str (isoformat dt)
         | none => .null),
       ("fiscal_year", fiscal_year),
       ("period", row.get "period"),
       ("common_stock_repurchased", row.get "commonStockRepurchased"),
       ("raw", .obj row),
       ("source", .str "FMP")])

end Cfs

/-! ## The ratios pipeline (`brk-ratios-load.py`) -/

namespace Ratios

/-- `safe_float` from `brk-ratios-load.py`: `None` and `""` short-circuit to
`None`; otherwise `float(value)`, catching only `(ValueError, TypeError)` to
`None`. Any other exception class — the `OverflowError` that `float()`
raises on an over-range int — propagates uncaught, which the `Except`
result records. -/
def safe_float (v : Value) : Except PyErr (Option PyFloat) :=
  if v = .null ∨ v = .str "" then .ok none
  else
    match pyFloatE v with
    | .ok f => .ok (some f)
    | .error .valueError => .ok none
    | .error .typeError => .ok none
    | .error e => .error e

/-- The value `safe_float` returns on its non-raising domain. -/
def safe_float_val (v : Value) : Option PyFloat :=
  if v = .null ∨ v = .str "" then none
  else
    match pyFloatE v with
    | .ok f => some f
    | .error _ => none

/-- `safe_int` from `brk-ratios-load.py`: `None` and `""` short-circuit to
`None`; otherwise `int(value)`, catching only `(ValueError, TypeError)` to
`None`. Within the modelled value space `int()` raises no other class
(Python ints are unbounded; `int(float('inf'))`'s `OverflowError` needs a
float infinity, which the carrier does not hold), so `safe_int` is proved —
not assumed — to return normally on every modelled value. -/
def safe_int (v : Value) : Except PyErr (Option Int) :=
  if v = .null ∨ v = .str "" then .ok none
  else
    match pyIntE v with
    | .ok n => .ok (some n)
    | .error .valueError => .ok none
    | .error .typeError => .ok none
    | .error e => .error e

/-- The value `safe_int` returns on its non-raising domain. -/
def safe_int_val (v : Value) : Option Int :=
  if v = .null ∨ v = .str "" then none
  else
    match pyIntE v with
    | .ok n => some n
    | .error _ => none

/-- `normalize_row` from `brk-ratios-load.py`. The dict literal's values
are evaluated in order; each `safe_float`/`safe_int` call can propagate an
uncaught `OverflowError` (over-range int input), which aborts the dict
construction — hence the `Except` result, sequencing the coercions in
source order. -/
def normalize_row (row : Entries) : Except PyErr Entries :=
  Except.bind (safe_int (row.get "fiscalYear")) fun fiscal_year =>
  Except.bind (safe_float (row.get "bookValuePerShare")) fun book_value_per_share =>
  Except.bind (safe_float (row.get "priceToBookRatio")) fun price_to_book_ratio =>
  Except.bind (safe_float (row.get "priceToEarningsRatio")) fun price_to_earnings_ratio =>
  Except.bind (safe_float (row.get "priceToSalesRatio")) fun price_to_sales_ratio =>
  Except.bind (safe_float (row.get "netProfitMargin")) fun net_profit_margin =>
  Except.bind (safe_float (row.get "grossProfitMargin")) fun gross_profit_margin =>
  Except.bind (safe_float (row.get "operatingProfitMargin")) fun operating_profit_margin =>
  Except.bind (safe_float (row.get "debtToEquityRatio")) fun debt_to_equity_ratio =>
  Except.bind (safe_float (row.get "currentRatio")) fun current_ratio =>
  Except.bind (safe_float (row.get "quickRatio")) fun quick_ratio =>
  Except.bind (safe_float (row.get "revenuePerShare")) fun revenue_per_share =>
  Except.bind (safe_float (row.get "netIncomePerShare")) fun net_income_per_share =>
  Except.bind (safe_float (row.get "cashPerShare")) fun cash_per_share =>
  Except.bind (safe_float (row.get "freeCashFlowPerShare")) fun free_cash_flow_per_share =>
  Except.ok (Entries.ofList
    [("symbol", row.get "symbol"),
     ("date", row.get "date"),
     ("fiscal_year", optIntVal fiscal_year),
     ("period", row.get "period"),
     ("reported_currency", row.getD "reportedCurrency" (.str "USD")),
     ("book_value_per_share", optFloatVal book_value_per_share),
     ("price_to_book_ratio", optFloatVal price_to_book_ratio),
     ("price_to_earnings_ratio", optFloatVal price_to_earnings_ratio),
     ("price_to_sales_ratio", optFloatVal price_to_sales_ratio),
     ("net_profit_margin", optFloatVal net_profit_margin),
     ("gross_profit_margin", optFloatVal gross_profit_margin),
     ("operating_profit_margin", optFloatVal operating_profit_margin),
     ("debt_to_equity_ratio", optFloatVal debt_to_equity_ratio),
     ("current_ratio", optFloatVal current_ratio),
     ("quick_ratio", optFloatVal quick_ratio),
     ("revenue_per_share", optFloatVal revenue_per_share),
     ("net_income_per_share", optFloatVal net_income_per_share),
     ("cash_per_share", optFloatVal cash_per_share),
     ("free_cash_flow_per_share", optFloatVal free_cash_flow_per_share),
     ("source", .str "FMP"),
     ("raw_data", .obj row)])

/-- The row `normalize_row` produces on its non-raising domain, field by
field from the raw record. -/
def row_val (row : Entries) : Entries :=
  Entries.ofList
    [("symbol", row.get "symbol"),
     ("date", row.get "date"),
     ("fiscal_year", optIntVal (safe_int_val (row.get "fiscalYear"))),
     ("period", row.get "period"),
     ("reported_currency", row.getD "reportedCurrency" (.str "USD")),
     ("book_value_per_share", optFloatVal (safe_float_val (row.get "bookValuePerShare"))),
     ("price_to_book_ratio", optFloatVal (safe_float_val (row.get "priceToBookRatio"))),
     ("price_to_earnings_ratio", optFloatVal (safe_float_val (row.get "priceToEarningsRatio"))),
     ("price_to_sales_ratio", optFloatVal (safe_float_val (row.get "priceToSalesRatio"))),
     ("net_profit_margin", optFloatVal (safe_float_val (row.get "netProfitMargin"))),
     ("gross_profit_margin", optFloatVal (safe_float_val (row.get "grossProfitMargin"))),
     ("operating_profit_margin", optFloatVal (safe_float_val (row.get "operatingProfitMargin"))),
     ("debt_to_equity_ratio", optFloatVal (safe_float_val (row.get "debtToEquityRatio"))),
     ("current_ratio", optFloatVal (safe_float_val (row.get "currentRatio"))),
     ("quick_ratio", optFloatVal (safe_float_val (row.get "quickRatio"))),
     ("revenue_per_share", optFloatVal (safe_float_val (row.get "revenuePerShare"))),
     ("net_income_per_share", optFloatVal (safe_float_val (row.get "netIncomePerShare"))),
     ("cash_per_share", optFloatVal (safe_float_val (row.get "cashPerShare"))),
     ("free_cash_flow_per_share", optFloatVal (safe_float_val (row.get "freeCashFlowPerShare"))),
     ("source", .str "FMP"),
     ("raw_data", .obj row)]

/-- Whether the ratios `normalize_row` raises on a raw record: exactly when
one of its fourteen float-coerced fields holds an over-range int. -/
def normalize_raises (row : Entries) : Bool :=
  floatCoercionOverflows (row.get "bookValuePerShare") ||
  floatCoercionOverflows (row.get "priceToBookRatio") ||
  floatCoercionOverflows (row.get "priceToEarningsRatio") ||
  floatCoercionOverflows (row.get "priceToSalesRatio") ||
  floatCoercionOverflows (row.get "netProfitMargin") ||
  floatCoercionOverflows (row.get "grossProfitMargin") ||
  floatCoercionOverflows (row.get "operatingProfitMargin") ||
  floatCoercionOverflows (row.get "debtToEquityRatio") ||
  floatCoercionOverflows (row.get "currentRatio") ||
  floatCoercionOverflows (row.get "quickRatio") ||
  floatCoercionOverflows (row.get "revenuePerShare") ||
  floatCoercionOverflows (row.get "netIncomePerShare") ||
  floatCoercionOverflows (row.get "cashPerShare") ||
  floatCoercionOverflows (row.get "freeCashFlowPerShare")

end Ratios

/-! ## Fetcher response-shape guard

Both `fetch_fmp_cash_flows` and `fetch_fmp_ratios` decode the response body
and then run `if not isinstance(data, list): print(...); return []`. Only
that post-decode guard is modelled; the HTTP transport (and its propagated
errors) is an external collaborator. -/

/-- Python `isinstance(data, list)` on a decoded JSON value. -/
def isPyList : Value → Bool
  | .list _ => true
  | _ => false

/-- The record sequence a fetch returns for a decoded payload `data`: the
list's elements when `data` is a list, the empty sequence otherwise (after
printing a warning). Shared by both fetchers. -/
def fmp_shape_guard (data : Value) : List Value :=
  match data with
  | .list vs => vs.toList
  | _ => []

/-! ## Row filter

`main` in both scripts: `rows = [r for r in rows if r.get("symbol") and
r.get("date")]` — Python truthiness of both fields. -/

/-- The filter condition of the list comprehension: `r.get("symbol") and
r.get("date")` used as an `if` condition, i.e. both fields truthy. -/
def keep_row (r : Entries) : Bool :=
  pyTruthy (r.get "symbol") && pyTruthy (r.get "date")

/-- The filter step of `main` in both scripts. -/
def filter_rows (rows : List Entries) : List Entries :=
  rows.filter keep_row

/-- Modelled from the spec's words (section 4.3), for comparison with the
implemented filter: retain a row when `symbol` and `date` are both "present
and non-empty", i.e. neither `None` nor the empty string. -/
def spec_keep_row (r : Entries) : Bool :=
  decide (r.get "symbol" ≠ .null ∧ r.get "symbol" ≠ .str "" ∧
          r.get "date" ≠ .null ∧ r.get "date" ≠ .str "")

/-! ## Batch upserter

`chunked` and `upsert_rows`, identical in both scripts. The persisted store
is modelled — as the claim directs and as the `unique(symbol, date)`
conflict target enforces — as a finite map keyed by `(symbol, date)`: a list
of rows with pairwise distinct keys. One upserted row fully replaces the
stored row sharing its key, or is appended; a batch applies its rows in
order (last writer wins). -/

/-- `chunked` from both scripts: `for i in range(0, len(iterable), size):
yield iterable[i:i+size]`. For `size > 0`, `range(0, n, size)` iterates
`⌈n / size⌉` times with `i = j * size` on iteration `j`. -/
def chunked {α : Type} (l : List α) (size : Nat) : List (List α) :=
  (List.range ((l.length + size - 1) / size)).map (fun j => (l.drop (j * size)).take size)

/-- The natural key of a row: its `symbol` and `date` values. -/
def rowKey (r : Entries) : Value × Value :=
  (r.get "symbol", r.get "date")

/-- The store after upserting one row with conflict target `symbol,date` and
`ignore_duplicates=False`: full replacement of the row sharing the key, or
an insertion at the end. -/
def insertRow (s : List Entries) (r : Entries) : List Entries :=
  if rowKey r ∈ s.map rowKey then
    s.map (fun x => if rowKey x = rowKey r then r else x)
  else s ++ [r]

/-- One batch upsert operation: its rows applied in order. -/
def apply_batch (s : List Entries) (batch : List Entries) : List Entries :=
  batch.foldl insertRow s

/-- The batch upsert operations `upsert_rows` issues, in order: none at all
for an empty row list (`if not rows: return`), otherwise the 500-chunks. -/
def upsert_batches (rows : List Entries) : List (List Entries) :=
  if rows = [] then [] else chunked rows 500

/-- `upsert_rows` from both scripts, as a store transformer: each issued
batch applied to the store in order. -/
def upsert_rows (store : List Entries) (rows : List Entries) : List Entries :=
  (upsert_batches rows).foldl apply_batch store

/-- The keys of the stored rows, in store order. -/
def storeKeys (s : List Entries) : List (Value × Value) :=
  s.map rowKey

/-- The stored row with key `k`, if any. -/
def storeFind (k : Value × Value) (s : List Entries) : Option Entries :=
  s.find? (fun r => rowKey r = k)

/-- The last row of `rows` carrying key `k` — the most recent write for that
key within one `upsert_rows` call. -/
def lastWrite (k : Value × Value) (rows : List Entries) : Option Entries :=
  rows.reverse.find? (fun r => rowKey r = k)

/-! ## Concrete records used by the claim witnesses and counterexamples -/

/-- `true` when a Python call returned normally, `false` when it raised. -/
def exceptOk {ε α : Type} : Except ε α → Bool
  | .ok _ => true
  | .error _ => false

/-- The ratios pipeline's normalization of a raw record whose `symbol` is the
number `0`: present, not an empty string, yet falsy. (The record coerces no
over-range int, so normalization returns normally.) -/
def rowZeroSym : Entries :=
  (Ratios.normalize_row
    (Entries.ofList [("symbol", .int 0), ("date", .str "2024-03-31")])).toOption.getD .nil

/-- The ratios pipeline's normalization of a raw record with no `symbol`
key at all (the normalized `symbol` field is `None`). -/
def rowNoSym : Entries :=
  (Ratios.normalize_row (Entries.ofList [("date", .str "2024-03-31")])).toOption.getD .nil

/-- A row whose `symbol` is `False`: present and not an empty string, yet
falsy. -/
def rowFalseSym : Entries :=
  Entries.ofList [("symbol", .bool false), ("date", .str "2024-03-31")]

/-- A row whose `symbol` and `date` are truthy non-strings. -/
def rowIntSym : Entries :=
  Entries.ofList [("symbol", .int 7), ("date", .int 20240331)]

/-- The cash-flow pipeline's normalization of the empty raw record. -/
def cfsRowOfNil : Entries :=
  Entries.ofList
    [("symbol", .null), ("date", .null), ("cik", .null), ("reported_currency", .null),
     ("filing_date", .null), ("accepted_at", .null), ("fiscal_year", .null), ("period", .null),
     ("common_stock_repurchased", .null), ("raw", .obj Entries.nil), ("source", .str "FMP")]

/-- The ratios pipeline's normalization of the empty raw record. -/
def ratiosRowOfNil : Entries :=
  Entries.ofList
    [("symbol", .null), ("date", .null), ("fiscal_year", .null), ("period", .null),
     ("reported_currency", .str "USD"),
     ("book_value_per_share", .null), ("price_to_book_ratio", .null),
     ("price_to_earnings_ratio", .null), ("price_to_sales_ratio", .null),
     ("net_profit_margin", .null), ("gross_profit_margin", .null),
     ("operating_profit_margin", .null), ("debt_to_equity_ratio", .null),
     ("current_ratio", .null), ("quick_ratio", .null),
     ("revenue_per_share", .null), ("net_income_per_share", .null),
     ("cash_per_share", .null), ("free_cash_flow_per_share", .null),
     ("source", .str "FMP"), ("raw_data", .obj Entries.nil)]

/-- A normalized row for `(BRK-B, 2024-03-31)`. -/
def wRowA : Entries :=
  Entries.ofList
    [("symbol", .str "BRK-B"), ("date", .str "2024-03-31"),
     ("common_stock_repurchased", .float ⟨-1, 9⟩)]

/-- A normalized row for `(BRK-B, 2024-06-30)`. -/
def wRowB : Entries :=
  Entries.ofList
    [("symbol", .str "BRK-B"), ("date", .str "2024-06-30"),
     ("common_stock_repurchased", .float ⟨-2, 9⟩)]

/-- 1200 pairwise distinct rows, for the concrete chunking scenario. -/
def rows1200 : List Entries :=
  (List.range 1200).map fun i => Entries.cons "date" (.int i) Entries.nil

example : Cfs.to_timestamptz (.str "2024-05-01 00:00:00") = some ⟨2024, 5, 1, 0, 0, 0, none⟩ := by decide
example : Cfs.to_timestamptz (.str "not-a-date") = none := by decide
example : Cfs.to_timestamptz .null = none := by decide
example : Cfs.normalize_row (Entries.ofList [("fiscalYear", .str "abc")]) = .error "ValueError" := by decide
example : Ratios.safe_float (.bool true) = .ok (some ⟨1, 0⟩) := by decide
example : Ratios.safe_float (.int (Int.ofNat (Nat.shiftLeft 1 1024))) =
    .error .overflowError := by decide
example : Ratios.normalize_row
    (Entries.ofList [("bookValuePerShare", .int (Int.ofNat (Nat.shiftLeft 1 1024)))]) =
    .error .overflowError := by decide
example : keep_row (Entries.ofList [("symbol", .int 0), ("date", .str "2024-03-31")]) = false := by decide
example : spec_keep_row (Entries.ofList [("symbol", .int 0), ("date", .str "2024-03-31")]) = true := by decide
example : (chunked (List.range 7) 3) = [[0, 1, 2], [3, 4, 5], [6]] := by decide

/-! ## Store lemmas

The characterization of `insertRow`, folds of it, and the chunked fold:
lookups after a fold are the last write within the fold, falling back to the
previous store; key lists never gain duplicates; and `upsert_rows` is the
plain row-by-row fold, because the 500-chunks concatenate back to the row
list. -/

theorem storeFind_eq_none (k : Value × Value) (s : List Entries)
    (h : k ∉ storeKeys s) : storeFind k s = none := by
  rw [storeFind, List.find?_eq_none]
  intro x hx
  simp only [decide_eq_true_eq]
  intro hk
  exact h (by simpa [storeKeys] using ⟨x, hx, hk⟩)

theorem storeFind_isSome (k : Value × Value) (s : List Entries)
    (h : k ∈ storeKeys s) : (storeFind k s).isSome := by
  rw [storeFind, List.find?_isSome]
  obtain ⟨x, hx, hk⟩ := by simpa [storeKeys] using h
  exact ⟨x, hx, by simpa using hk⟩

theorem storeKeys_insertRow (s : List Entries) (r : Entries) :
    storeKeys (insertRow s r) =
      if rowKey r ∈ storeKeys s then storeKeys s else storeKeys s ++ [rowKey r] := by
  unfold insertRow storeKeys
  split
  · rw [List.map_map]
    apply List.map_congr_left
    intro x _
    simp only [Function.comp_apply]
    by_cases hxx : rowKey x = rowKey r
    · rw [if_pos hxx, hxx]
    · rw [if_neg hxx]
  · rw [List.map_append]
    rfl

theorem mem_storeKeys_insertRow (k : Value × Value) (s : List Entries) (r : Entries)
    (h : k ∈ storeKeys s) : k ∈ storeKeys (insertRow s r) := by
  rw [storeKeys_insertRow]
  split
  · exact h
  · exact List.mem_append_left _ h

theorem self_mem_storeKeys_insertRow (s : List Entries) (r : Entries) :
    rowKey r ∈ storeKeys (insertRow s r) := by
  rw [storeKeys_insertRow]
  split
  · assumption
  · exact List.mem_append_right _ (List.mem_singleton.mpr rfl)

theorem storeFind_map_replace (k : Value × Value) (r : Entries) :
    ∀ s : List Entries,
      storeFind k (s.map (fun x => if rowKey x = rowKey r then r else x)) =
        if k = rowKey r then (storeFind (rowKey r) s).map (fun _ => r) else storeFind k s := by
  intro s
  induction s with
  | nil => simp [storeFind]
  | cons a tl ih =>
    simp only [storeFind] at ih ⊢
    simp only [List.map_cons]
    by_cases h1 : rowKey a = rowKey r
    · rw [if_pos h1]
      by_cases hk : k = rowKey r
      · rw [List.find?_cons_of_pos _ (by simpa using hk.symm), if_pos hk,
          List.find?_cons_of_pos _ (by simpa using h1)]
        rfl
      · rw [List.find?_cons_of_neg _ (by simpa using fun h : rowKey r = k => hk h.symm),
          if_neg hk,
          List.find?_cons_of_neg _ (by simpa using fun h : rowKey a = k => hk (h.symm.trans h1))]
        rw [ih, if_neg hk]
    · rw [if_neg h1]
      by_cases h2 : rowKey a = k
      · have hk : ¬(k = rowKey r) := fun h => h1 (h2.trans h)
        rw [List.find?_cons_of_pos _ (by simpa using h2), if_neg hk,
          List.find?_cons_of_pos _ (by simpa using h2)]
      · rw [List.find?_cons_of_neg _ (by simpa using h2)]
        by_cases hk : k = rowKey r
        · rw [if_pos hk, List.find?_cons_of_neg _ (by simpa using h1)]
          rw [ih, if_pos hk]
        · rw [if_neg hk, List.find?_cons_of_neg _ (by simpa using h2)]
          rw [ih, if_neg hk]

theorem nodup_storeKeys_insertRow (s : List Entries) (r : Entries)
    (h : (storeKeys s).Nodup) : (storeKeys (insertRow s r)).Nodup := by
  rw [storeKeys_insertRow]
  split
  · exact h
  · rename_i hmem
    rw [List.nodup_append]
    exact ⟨h, List.nodup_singleton _, by simpa [List.disjoint_singleton] using hmem⟩

theorem storeFind_insertRow (k : Value × Value) (s : List Entries) (r : Entries) :
    storeFind k (insertRow s r) = if k = rowKey r then some r else storeFind k s := by
  unfold insertRow
  by_cases hmem : rowKey r ∈ s.map rowKey
  · rw [if_pos hmem, storeFind_map_replace]
    by_cases hk : k = rowKey r
    · rw [if_pos hk, if_pos hk]
      obtain ⟨x, hx⟩ := Option.isSome_iff_exists.mp (storeFind_isSome _ _ hmem)
      rw [hx]
      rfl
    · rw [if_neg hk, if_neg hk]
  · rw [if_neg hmem]
    by_cases hk : k = rowKey r
    · have h0 : storeFind k s = none := storeFind_eq_none _ _ (hk ▸ hmem)
      rw [if_pos hk, storeFind, List.find?_append]
      rw [storeFind] at h0
      rw [h0, Option.none_or, List.find?_cons_of_pos _ (by simpa using hk.symm)]
    · rw [if_neg hk, storeFind, List.find?_append,
        List.find?_cons_of_neg _ (by simpa using fun h => hk h.symm)]
      simp [storeFind]

theorem storeFind_foldl (k : Value × Value) :
    ∀ (rows : List Entries) (s : List Entries),
      storeFind k (rows.foldl insertRow s) = (lastWrite k rows).or (storeFind k s) := by
  intro rows
  induction rows with
  | nil => intro s; simp [lastWrite]
  | cons r rs ih =>
    intro s
    rw [List.foldl_cons, ih, storeFind_insertRow]
    unfold lastWrite
    rw [List.reverse_cons, List.find?_append, Option.or_assoc]
    congr 1
    by_cases hk : k = rowKey r
    · rw [if_pos hk, List.find?_cons_of_pos _ (by simpa using hk.symm)]
      rfl
    · rw [if_neg hk, List.find?_cons_of_neg _ (by simpa using fun h : rowKey r = k => hk h.symm)]
      simp

theorem storeKeys_foldl_of_mem :
    ∀ (rows : List Entries) (s : List Entries),
      (∀ r ∈ rows, rowKey r ∈ storeKeys s) →
      storeKeys (rows.foldl insertRow s) = storeKeys s := by
  intro rows
  induction rows with
  | nil => intro s _; rfl
  | cons r rs ih =>
    intro s h
    rw [List.foldl_cons]
    have h1 : rowKey r ∈ storeKeys s := h r (List.mem_cons_self _ _)
    have h2 : storeKeys (insertRow s r) = storeKeys s := by
      rw [storeKeys_insertRow, if_pos h1]
    rw [ih _ (fun x hx => by rw [h2]; exact h x (List.mem_cons_of_mem _ hx)), h2]

theorem mem_storeKeys_foldl (k : Value × Value) :
    ∀ (rows : List Entries) (s : List Entries),
      k ∈ storeKeys s → k ∈ storeKeys (rows.foldl insertRow s) := by
  intro rows
  induction rows with
  | nil => intro s h; exact h
  | cons r rs ih =>
    intro s h
    rw [List.foldl_cons]
    exact ih _ (mem_storeKeys_insertRow _ _ _ h)

theorem rowKey_mem_storeKeys_foldl :
    ∀ (rows : List Entries) (s : List Entries), ∀ r ∈ rows,
      rowKey r ∈ storeKeys (rows.foldl insertRow s) := by
  intro rows
  induction rows with
  | nil => intro s r h; cases h
  | cons a rs ih =>
    intro s r hr
    rw [List.foldl_cons]
    rcases List.mem_cons.mp hr with h | h
    · subst h
      exact mem_storeKeys_foldl _ rs _ (self_mem_storeKeys_insertRow s r)
    · exact ih _ r h

theorem nodup_storeKeys_foldl :
    ∀ (rows : List Entries) (s : List Entries),
      (storeKeys s).Nodup → (storeKeys (rows.foldl insertRow s)).Nodup := by
  intro rows
  induction rows with
  | nil => intro s h; exact h
  | cons r rs ih =>
    intro s h
    rw [List.foldl_cons]
    exact ih _ (nodup_storeKeys_insertRow _ _ h)

theorem store_ext :
    ∀ s1 s2 : List Entries, storeKeys s1 = storeKeys s2 → (storeKeys s1).Nodup →
      (∀ k, storeFind k s1 = storeFind k s2) → s1 = s2 := by
  intro s1
  induction s1 with
  | nil =>
    intro s2 hkeys _ _
    have h2 : s2.map rowKey = [] := by simpa [storeKeys] using hkeys.symm
    exact (List.map_eq_nil_iff.mp h2).symm
  | cons a t1 ih =>
    intro s2 hkeys hnd hfind
    cases s2 with
    | nil => simp [storeKeys] at hkeys
    | cons b t2 =>
      simp only [storeKeys, List.map_cons, List.cons.injEq] at hkeys
      obtain ⟨hk0, htl⟩ := hkeys
      have hab : a = b := by
        have h1 : storeFind (rowKey a) (a :: t1) = some a := by
          rw [storeFind, List.find?_cons_of_pos _ (by simp)]
        have h2 : storeFind (rowKey a) (b :: t2) = some b := by
          rw [storeFind, List.find?_cons_of_pos _ (by simpa using hk0.symm)]
        have h3 := hfind (rowKey a)
        rw [h1, h2] at h3
        exact Option.some.inj h3
      subst hab
      have hnd' : rowKey a ∉ List.map rowKey t1 ∧ (List.map rowKey t1).Nodup := by
        have h := hnd
        simp only [storeKeys, List.map_cons, List.nodup_cons] at h
        exact h
      congr 1
      apply ih t2 (by simpa [storeKeys] using htl) (by simpa [storeKeys] using hnd'.2)
      intro k
      by_cases hk : k = rowKey a
      · subst hk
        have hnot1 : rowKey a ∉ storeKeys t1 := hnd'.1
        have hnot2 : rowKey a ∉ storeKeys t2 := by
          simp only [storeKeys] at hnot1 ⊢
          rw [← htl]
          exact hnot1
        rw [storeFind_eq_none _ _ hnot1, storeFind_eq_none _ _ hnot2]
      · have h1 := hfind k
        rw [storeFind, List.find?_cons_of_neg _ (by simpa using fun h : rowKey a = k => hk h.symm),
          storeFind, List.find?_cons_of_neg _ (by simpa using fun h : rowKey a = k => hk h.symm)]
          at h1
        exact h1

theorem chunked_flatten {α : Type} (l : List α) (size : Nat) (hs : 0 < size) :
    (chunked l size).flatten = l := by
  have key : ∀ k : Nat,
      ((List.range k).map fun j => (l.drop (j * size)).take size).flatten = l.take (k * size) := by
    intro k
    induction k with
    | zero => simp
    | succ n ihn =>
      rw [List.range_succ, List.map_append, List.flatten_append, ihn]
      simp only [List.map_cons, List.map_nil, List.flatten_cons, List.flatten_nil,
        List.append_nil]
      rw [← List.take_add, Nat.succ_mul]
  rw [chunked, key]
  apply List.take_of_length_le
  have h1 := Nat.div_add_mod (l.length + size - 1) size
  have h2 : (l.length + size - 1) % size < size := Nat.mod_lt _ hs
  rw [Nat.mul_comm]
  generalize hm : size * ((l.length + size - 1) / size) = M at h1 ⊢
  omega

theorem apply_batches_foldl :
    ∀ (L : List (List Entries)) (s : List Entries),
      L.foldl apply_batch s = (L.flatten).foldl insertRow s := by
  intro L
  induction L with
  | nil => intro s; rfl
  | cons b bs ih =>
    intro s
    rw [List.foldl_cons, ih, List.flatten_cons, List.foldl_append]
    rfl

theorem upsert_rows_eq_foldl (store rows : List Entries) :
    upsert_rows store rows = rows.foldl insertRow store := by
  unfold upsert_rows upsert_batches
  by_cases h : rows = []
  · subst h; simp
  · rw [if_neg h, apply_batches_foldl, chunked_flatten _ _ (by omega)]

/-! ## The claims -/

/-- C1: with the persisted store modelled as a finite map keyed by
`(symbol, date)` (a row list with pairwise distinct keys) and each batch
upsert inserting-or-fully-replacing rows last-writer-wins, running
`upsert_rows` on the same normalized row list twice consecutively yields the
same store state as running it once; that state holds at most one row per
key, holds a row for every upserted key, and the row stored under an
upserted row's key equals the most recent write (`lastWrite`) for that key. -/
theorem claim_c1_upsert_idempotent (s rows : List Entries)
    (hnd : (storeKeys s).Nodup) :
    upsert_rows (upsert_rows s rows) rows = upsert_rows s rows ∧
    (storeKeys (upsert_rows s rows)).Nodup ∧
    (∀ r ∈ rows, rowKey r ∈ storeKeys (upsert_rows s rows)) ∧
    (∀ r ∈ rows, storeFind (rowKey r) (upsert_rows s rows) = lastWrite (rowKey r) rows) := by
  simp only [upsert_rows_eq_foldl]
  refine ⟨?_, ?_, ?_, ?_⟩
  · apply store_ext
    · exact storeKeys_foldl_of_mem rows _ (rowKey_mem_storeKeys_foldl rows s)
    · exact nodup_storeKeys_foldl rows _ (nodup_storeKeys_foldl rows s hnd)
    · intro k
      rw [storeFind_foldl, storeFind_foldl]
      cases lastWrite k rows <;> simp
  · exact nodup_storeKeys_foldl rows s hnd
  · exact fun r hr => rowKey_mem_storeKeys_foldl rows s r hr
  · intro r hr
    rw [storeFind_foldl]
    have hsome : (lastWrite (rowKey r) rows).isSome := by
      rw [lastWrite, List.find?_isSome]
      exact ⟨r, by simpa using hr, by simp⟩
    obtain ⟨x, hx⟩ := Option.isSome_iff_exists.mp hsome
    rw [hx]
    rfl

/-- Witness for C1 at a concrete store and row list. -/
theorem claim_c1_witness :
    (storeKeys ([] : List Entries)).Nodup ∧
    (upsert_rows (upsert_rows [] [wRowA, wRowB]) [wRowA, wRowB] =
        upsert_rows [] [wRowA, wRowB] ∧
     (storeKeys (upsert_rows [] [wRowA, wRowB])).Nodup ∧
     (∀ r ∈ [wRowA, wRowB], rowKey r ∈ storeKeys (upsert_rows [] [wRowA, wRowB])) ∧
     (∀ r ∈ [wRowA, wRowB],
        storeFind (rowKey r) (upsert_rows [] [wRowA, wRowB]) =
          lastWrite (rowKey r) [wRowA, wRowB])) :=
  ⟨by decide, claim_c1_upsert_idempotent [] [wRowA, wRowB] (by decide)⟩

set_option maxRecDepth 100000

/-- C4: `upsert_rows` issues exactly `⌈n / 500⌉` batch upsert operations —
none at all for the empty list — each batch holds at most 500 rows, every
batch before the last holds exactly 500, and the batches concatenate in
issue order back to the input row list; 1200 rows yield exactly 3 batches of
sizes 500, 500, 200. -/
theorem claim_c4_chunking (rows : List Entries) :
    (upsert_batches rows).length = (rows.length + 499) / 500 ∧
    upsert_batches ([] : List Entries) = [] ∧
    ((upsert_batches rows).all fun b => b.length ≤ 500) ∧
    ((upsert_batches rows).dropLast.all fun b => b.length = 500) ∧
    (upsert_batches rows).flatten = rows ∧
    (upsert_batches rows1200).map List.length = [500, 500, 200] := by
  refine ⟨?_, by decide, ?_, ?_, ?_, by decide⟩
  · unfold upsert_batches
    by_cases h : rows = []
    · subst h; simp
    · rw [if_neg h]
      simp only [chunked, List.length_map, List.length_range]
      omega
  · rw [List.all_eq_true]
    intro b hb
    simp only [upsert_batches] at hb
    split at hb
    · simp at hb
    · simp only [chunked, List.mem_map, List.mem_range] at hb
      obtain ⟨j, _, rfl⟩ := hb
      simp only [List.length_take, List.length_drop, decide_eq_true_eq]
      omega
  · by_cases h : rows = []
    · subst h; simp [upsert_batches]
    · simp only [upsert_batches, if_neg h, chunked]
      have hK : 1 ≤ (rows.length + 500 - 1) / 500 := by
        have h0 : rows.length ≠ 0 := fun hc => h (List.length_eq_zero.mp hc)
        have h1 := Nat.div_add_mod (rows.length + 500 - 1) 500
        have h2 : (rows.length + 500 - 1) % 500 < 500 := Nat.mod_lt _ (by omega)
        generalize hm : 500 * ((rows.length + 500 - 1) / 500) = M at h1
        by_contra hc
        have : (rows.length + 500 - 1) / 500 = 0 := by omega
        rw [this, Nat.mul_zero] at hm
        omega
      obtain ⟨K, hKeq⟩ : ∃ K, (rows.length + 500 - 1) / 500 = K + 1 :=
        ⟨_, (Nat.succ_pred_eq_of_pos hK).symm⟩
      rw [hKeq, List.range_succ, List.map_append, List.map_cons, List.map_nil,
        List.dropLast_concat, List.all_eq_true]
      intro b hb
      simp only [List.mem_map, List.mem_range] at hb
      obtain ⟨j, hj, rfl⟩ := hb
      simp only [List.length_take, List.length_drop, decide_eq_true_eq]
      have h1 := Nat.div_add_mod (rows.length + 500 - 1) 500
      have h2 : (rows.length + 500 - 1) % 500 < 500 := Nat.mod_lt _ (by omega)
      rw [hKeq] at h1
      omega
  · by_cases h : rows = []
    · subst h; simp [upsert_batches]
    · simp only [upsert_batches, if_neg h]
      exact chunked_flatten rows 500 (by omega)

theorem except_bind_ok {ε α β : Type} (x : α) (f : α → Except ε β) :
    Except.bind (Except.ok x) f = f x := rfl

theorem except_bind_error {ε α β : Type} (e : ε) (f : α → Except ε β) :
    Except.bind (Except.error e) f = Except.error e := rfl

/-- `safe_float` raises exactly on over-range ints (the uncaught
`OverflowError` class) and otherwise returns its non-raising value. -/
theorem safe_float_eq (v : Value) :
    Ratios.safe_float v =
      if floatCoercionOverflows v then .error .overflowError
      else .ok (Ratios.safe_float_val v) := by
  cases v with
  | null => simp [Ratios.safe_float, Ratios.safe_float_val, floatCoercionOverflows]
  | bool b => simp [Ratios.safe_float, Ratios.safe_float_val, pyFloatE, floatCoercionOverflows]
  | int n =>
    by_cases h : intOverflowsFloat n <;>
      simp [Ratios.safe_float, Ratios.safe_float_val, pyFloatE, floatCoercionOverflows, h]
  | float q => simp [Ratios.safe_float, Ratios.safe_float_val, pyFloatE, floatCoercionOverflows]
  | str s =>
    by_cases hs : s = ""
    · subst hs
      simp [Ratios.safe_float, Ratios.safe_float_val, floatCoercionOverflows]
    · cases hp : parseFloatLit s <;>
        simp [Ratios.safe_float, Ratios.safe_float_val, pyFloatE, floatCoercionOverflows, hs, hp]
  | list l => simp [Ratios.safe_float, Ratios.safe_float_val, pyFloatE, floatCoercionOverflows]
  | obj o => simp [Ratios.safe_float, Ratios.safe_float_val, pyFloatE, floatCoercionOverflows]

/-- `safe_int` returns normally on every modelled value: `int()` raises only
`ValueError`/`TypeError` within the carrier, and `safe_int` catches both. -/
theorem safe_int_eq (v : Value) :
    Ratios.safe_int v = .ok (Ratios.safe_int_val v) := by
  cases v with
  | null => simp [Ratios.safe_int, Ratios.safe_int_val]
  | bool b => simp [Ratios.safe_int, Ratios.safe_int_val, pyIntE]
  | int n => simp [Ratios.safe_int, Ratios.safe_int_val, pyIntE]
  | float q => simp [Ratios.safe_int, Ratios.safe_int_val, pyIntE]
  | str s =>
    by_cases hs : s = ""
    · subst hs
      simp [Ratios.safe_int, Ratios.safe_int_val]
    · cases hp : parseIntLit s <;> simp [Ratios.safe_int, Ratios.safe_int_val, pyIntE, hs, hp]
  | list l => simp [Ratios.safe_int, Ratios.safe_int_val, pyIntE]
  | obj o => simp [Ratios.safe_int, Ratios.safe_int_val, pyIntE]

/-- The ratios `normalize_row` in closed form: it raises (`OverflowError`)
exactly when one of the fourteen float-coerced fields holds an over-range
int, and otherwise returns the field-by-field normalized row. -/
theorem ratios_normalize_eq (row : Entries) :
    Ratios.normalize_row row =
      if Ratios.normalize_raises row then .error .overflowError
      else .ok (Ratios.row_val row) := by
  unfold Ratios.normalize_row Ratios.normalize_raises Ratios.row_val
  rw [safe_int_eq, except_bind_ok]
  simp only [safe_float_eq]
  cases h1 : floatCoercionOverflows (row.get "bookValuePerShare") <;>
    simp only [Bool.false_eq_true, eq_self_iff_true, if_true, if_false, except_bind_ok,
      except_bind_error, Bool.false_or, Bool.true_or]
  cases h2 : floatCoercionOverflows (row.get "priceToBookRatio") <;>
    simp only [Bool.false_eq_true, eq_self_iff_true, if_true, if_false, except_bind_ok,
      except_bind_error, Bool.false_or, Bool.true_or]
  cases h3 : floatCoercionOverflows (row.get "priceToEarningsRatio") <;>
    simp only [Bool.false_eq_true, eq_self_iff_true, if_true, if_false, except_bind_ok,
      except_bind_error, Bool.false_or, Bool.true_or]
  cases h4 : floatCoercionOverflows (row.get "priceToSalesRatio") <;>
    simp only [Bool.false_eq_true, eq_self_iff_true, if_true, if_false, except_bind_ok,
      except_bind_error, Bool.false_or, Bool.true_or]
  cases h5 : floatCoercionOverflows (row.get "netProfitMargin") <;>
    simp only [Bool.false_eq_true, eq_self_iff_true, if_true, if_false, except_bind_ok,
      except_bind_error, Bool.false_or, Bool.true_or]
  cases h6 : floatCoercionOverflows (row.get "grossProfitMargin") <;>
    simp only [Bool.false_eq_true, eq_self_iff_true, if_true, if_false, except_bind_ok,
      except_bind_error, Bool.false_or, Bool.true_or]
  cases h7 : floatCoercionOverflows (row.get "operatingProfitMargin") <;>
    simp only [Bool.false_eq_true, eq_self_iff_true, if_true, if_false, except_bind_ok,
      except_bind_error, Bool.false_or, Bool.true_or]
  cases h8 : floatCoercionOverflows (row.get "debtToEquityRatio") <;>
    simp only [Bool.false_eq_true, eq_self_iff_true, if_true, if_false, except_bind_ok,
      except_bind_error, Bool.false_or, Bool.true_or]
  cases h9 : floatCoercionOverflows (row.get "currentRatio") <;>
    simp only [Bool.false_eq_true, eq_self_iff_true, if_true, if_false, except_bind_ok,
      except_bind_error, Bool.false_or, Bool.true_or]
  cases h10 : floatCoercionOverflows (row.get "quickRatio") <;>
    simp only [Bool.false_eq_true, eq_self_iff_true, if_true, if_false, except_bind_ok,
      except_bind_error, Bool.false_or, Bool.true_or]
  cases h11 : floatCoercionOverflows (row.get "revenuePerShare") <;>
    simp only [Bool.false_eq_true, eq_self_iff_true, if_true, if_false, except_bind_ok,
      except_bind_error, Bool.false_or, Bool.true_or]
  cases h12 : floatCoercionOverflows (row.get "netIncomePerShare") <;>
    simp only [Bool.false_eq_true, eq_self_iff_true, if_true, if_false, except_bind_ok,
      except_bind_error, Bool.false_or, Bool.true_or]
  cases h13 : floatCoercionOverflows (row.get "cashPerShare") <;>
    simp only [Bool.false_eq_true, eq_self_iff_true, if_true, if_false, except_bind_ok,
      except_bind_error, Bool.false_or, Bool.true_or]
  cases h14 : floatCoercionOverflows (row.get "freeCashFlowPerShare") <;>
    simp only [Bool.false_eq_true, eq_self_iff_true, if_true, if_false, except_bind_ok,
      except_bind_error, Bool.false_or, Bool.true_or]

/-- C2 counterexample: the claim says `normalize_row` never raises in either
pipeline, but the cash-flow pipeline's bare `int(row["fiscalYear"])` raises
`ValueError` on the raw record `{"fiscalYear": "abc"}`. -/
theorem claim_c2_counterexample :
    Cfs.normalize_row (Entries.ofList [("fiscalYear", .str "abc")]) = .error "ValueError" := by
  decide

/-- C2 as amended: the cash-flow `normalize_row` returns a row exactly when
`fiscalYear` is absent, `None`, the empty string, or int-convertible — and
raises otherwise; the ratios `normalize_row` returns a row exactly when none
of its fourteen float-coerced fields holds an int too large for a double —
otherwise `float()`'s `OverflowError` passes uncaught through `safe_float`
(which catches only `ValueError`/`TypeError`) and aborts it, concretely on
`{"bookValuePerShare": 2 ** 1024}`. (Within the modelled value space — which
carries no float infinities — `safe_int` propagates no error.) -/
theorem claim_c2_normalize_total (raw : Entries) :
    exceptOk (Cfs.normalize_row raw) =
      (decide (raw.get "fiscalYear" = .null ∨ raw.get "fiscalYear" = .str "") ||
        (pyInt? (raw.get "fiscalYear")).isSome) ∧
    exceptOk (Ratios.normalize_row raw) = !(Ratios.normalize_raises raw) ∧
    Ratios.normalize_row
        (Entries.ofList [("bookValuePerShare", .int (Int.ofNat (Nat.shiftLeft 1 1024)))]) =
      .error .overflowError := by
  refine ⟨?_, ?_, by decide⟩
  · unfold Cfs.normalize_row
    by_cases h : raw.get "fiscalYear" = .null ∨ raw.get "fiscalYear" = .str ""
    · simp [h, exceptOk]
    · cases hp : pyInt? (raw.get "fiscalYear") <;> simp [h, hp, exceptOk]
  · rw [ratios_normalize_eq]
    by_cases h : Ratios.normalize_raises raw <;> simp [h, exceptOk]

/-- C3 counterexample: the claim says safe-cast yields the null field value
for boolean input, but Python `bool` is a subclass of `int`, so
`safe_float(True) = 1.0` and `safe_int(True) = 1`, not `None`. -/
theorem claim_c3_counterexample :
    Ratios.safe_float (.bool true) = .ok (some ⟨1, 0⟩) ∧
    Ratios.safe_float (.bool true) ≠ .ok none ∧
    Ratios.safe_int (.bool true) = .ok (some 1) ∧
    Ratios.safe_int (.bool true) ≠ .ok none := by
  decide

/-- C3 as amended: for `None`, the empty string, and non-numeric strings,
`safe_float` and `safe_int` return normally with the null field value and
never raise (`.ok none` — no error escapes on these inputs); boolean input
is numeric in Python and converts to `1`/`0` rather than to null. -/
theorem claim_c3_safe_cast (s : String) (b : Bool)
    (hf : parseFloatLit s = none) (hi : parseIntLit s = none) :
    Ratios.safe_float .null = .ok none ∧ Ratios.safe_float (.str "") = .ok none ∧
    Ratios.safe_int .null = .ok none ∧ Ratios.safe_int (.str "") = .ok none ∧
    Ratios.safe_float (.str s) = .ok none ∧ Ratios.safe_int (.str s) = .ok none ∧
    Ratios.safe_float (.bool b) = .ok (some (.ofInt (if b then 1 else 0))) ∧
    Ratios.safe_int (.bool b) = .ok (some (if b then 1 else 0)) := by
  refine ⟨by simp [Ratios.safe_float], by simp [Ratios.safe_float],
    by simp [Ratios.safe_int], by simp [Ratios.safe_int], ?_, ?_, ?_, ?_⟩
  · by_cases hs : (Value.str s = Value.null ∨ Value.str s = Value.str "") <;>
      simp [Ratios.safe_float, hs, pyFloatE, hf]
  · by_cases hs : (Value.str s = Value.null ∨ Value.str s = Value.str "") <;>
      simp [Ratios.safe_int, hs, pyIntE, hi]
  · simp [Ratios.safe_float, pyFloatE]
  · simp [Ratios.safe_int, pyIntE]

/-- Witness for C3 at the concrete non-numeric string and boolean. -/
theorem claim_c3_witness :
    (parseFloatLit "not-a-number" = none ∧ parseIntLit "not-a-number" = none) ∧
    (Ratios.safe_float .null = .ok none ∧ Ratios.safe_float (.str "") = .ok none ∧
     Ratios.safe_int .null = .ok none ∧ Ratios.safe_int (.str "") = .ok none ∧
     Ratios.safe_float (.str "not-a-number") = .ok none ∧
     Ratios.safe_int (.str "not-a-number") = .ok none ∧
     Ratios.safe_float (.bool true) = .ok (some (.ofInt 1)) ∧
     Ratios.safe_int (.bool true) = .ok (some 1)) :=
  ⟨⟨by decide, by decide⟩, by
    have h := claim_c3_safe_cast "not-a-number" true (by decide) (by decide)
    simpa using h⟩

/-- C5 counterexample: the claim says the filter retains exactly the rows
whose `symbol` and `date` are present and non-empty, but the normalized row
of `{"symbol": 0, "date": "2024-03-31"}` — whose fields are present and not
empty strings — is dropped, because the filter tests truthiness and `0` is
falsy. -/
theorem claim_c5_counterexample :
    spec_keep_row rowZeroSym = true ∧ filter_rows [rowZeroSym] = [] := by
  decide

/-- C5 as amended: every row whose `symbol` or `date` is `None` or the empty
string is dropped by the filter and therefore never reaches the batch
upserter; retention is decided by Python truthiness of both fields (C10),
not by presence-and-non-emptiness. -/
theorem claim_c5_filter (rows : List Entries) (r : Entries)
    (hbad : r.get "symbol" = .null ∨ r.get "symbol" = .str "" ∨
            r.get "date" = .null ∨ r.get "date" = .str "") :
    r ∉ filter_rows rows := by
  intro hmem
  have hk : keep_row r = true := (List.mem_filter.mp hmem).2
  rcases hbad with h | h | h | h <;> simp [keep_row, h, pyTruthy] at hk

/-- Witness for C5 at a concrete row with no `symbol`. -/
theorem claim_c5_witness :
    rowNoSym.get "symbol" = .null ∧ rowNoSym ∉ filter_rows [rowNoSym] :=
  ⟨by decide, claim_c5_filter [rowNoSym] rowNoSym (Or.inl (by decide))⟩

/-- C6: when the decoded provider payload is not a list — such as the
mapping `{"error": "rate limited"}` — the fetch returns the empty record
sequence (after printing a diagnostic) instead of raising, so zero raw
records (and hence zero normalized rows) come out of that response. -/
theorem claim_c6_shape_guard (v : Value) (h : isPyList v = false) :
    fmp_shape_guard v = [] := by
  cases v <;> first | rfl | (simp [isPyList] at h)

/-- Witness for C6 at the concrete non-list payload from the claim. -/
theorem claim_c6_witness :
    isPyList (.obj (Entries.ofList [("error", .str "rate limited")])) = false ∧
    fmp_shape_guard (.obj (Entries.ofList [("error", .str "rate limited")])) = [] :=
  ⟨by decide, claim_c6_shape_guard _ (by decide)⟩

/-- C7: the naive string `"2024-05-01 00:00:00"` parses via the exact-format
`strptime` and re-emits as the valid ISO timestamp `"2024-05-01T00:00:00"`
(which itself parses back); a full ISO string with offset fails `strptime`
but parses via the `fromisoformat` fallback and re-emits unchanged; and any
string both parsers reject gives a null timestamp field, with no exception
anywhere — concretely `"not-a-date"`, whose normalized `accepted_at` is
`None`. -/
theorem claim_c7_timestamps (s : String)
    (h1 : parse_strptime_ymd_hms s = none) (h2 : parse_fromisoformat s = none) :
    Cfs.to_timestamptz (.str s) = none ∧
    parse_strptime_ymd_hms "2024-05-01 00:00:00" = some ⟨2024, 5, 1, 0, 0, 0, none⟩ ∧
    Cfs.to_timestamptz (.str "2024-05-01 00:00:00") = some ⟨2024, 5, 1, 0, 0, 0, none⟩ ∧
    isoformat ⟨2024, 5, 1, 0, 0, 0, none⟩ = "2024-05-01T00:00:00" ∧
    parse_fromisoformat "2024-05-01T00:00:00" = some ⟨2024, 5, 1, 0, 0, 0, none⟩ ∧
    parse_strptime_ymd_hms "2024-05-01T00:00:00+00:00" = none ∧
    Cfs.to_timestamptz (.str "2024-05-01T00:00:00+00:00") =
      some ⟨2024, 5, 1, 0, 0, 0, some 0⟩ ∧
    isoformat ⟨2024, 5, 1, 0, 0, 0, some 0⟩ = "2024-05-01T00:00:00+00:00" ∧
    Cfs.to_timestamptz (.str "not-a-date") = none ∧
    (Cfs.normalize_row (Entries.ofList [("acceptedDate", .str "not-a-date")])).toOption.map
      (fun r => r.get "accepted_at") = some .null := by
  refine ⟨?_, by decide, by decide, by decide, by decide, by decide, by decide, by decide,
    by decide, by decide⟩
  by_cases hs : s = "" <;> simp [Cfs.to_timestamptz, pyStr, pyTruthy, hs, h1, h2]

/-- Witness for C7 at a concrete string both parsers reject. -/
theorem claim_c7_witness :
    (parse_strptime_ymd_hms "garbage" = none ∧ parse_fromisoformat "garbage" = none) ∧
    Cfs.to_timestamptz (.str "garbage") = none :=
  ⟨⟨by decide, by decide⟩, (claim_c7_timestamps "garbage" (by decide) (by decide)).1⟩

/-- Every successful run of the cash-flow `normalize_row` returns exactly
the schema dict built from the raw record, for some `fiscal_year` value. -/
theorem cfs_normalize_ok_shape (raw r : Entries) (h : Cfs.normalize_row raw = .ok r) :
    ∃ fy : Value, r = Entries.ofList
      [("symbol", raw.get "symbol"),
       ("date", raw.get "date"),
       ("cik", raw.get "cik"),
       ("reported_currency", raw.get "reportedCurrency"),
       ("filing_date", raw.get "filingDate"),
       ("accepted_at",
         match Cfs.to_timestamptz (raw.get "acceptedDate") with
         | some dt => .str (isoformat dt)
         | none => .null),
       ("fiscal_year", fy),
       ("period", raw.get "period"),
       ("common_stock_repurchased", raw.get "commonStockRepurchased"),
       ("raw", .obj raw),
       ("source", .str "FMP")] := by
  unfold Cfs.normalize_row at h
  by_cases hfy : ¬(raw.get "fiscalYear" = .null ∨ raw.get "fiscalYear" = .str "")
  · rw [if_pos hfy] at h
    cases hp : pyInt? (raw.get "fiscalYear") with
    | none => rw [hp] at h; simp at h
    | some n =>
      rw [hp] at h
      simp only [Except.ok.injEq] at h
      exact ⟨Value.int n, h.symm⟩
  · rw [if_neg hfy] at h
    simp only [Except.ok.injEq] at h
    exact ⟨Value.null, h.symm⟩

/-- C8 counterexample: the claim says both pipelines embed the verbatim raw
record under a `raw` field, but the ratios pipeline's output row — produced
normally for this record — has no `raw` key at all (it uses `raw_data`). -/
theorem claim_c8_counterexample :
    (Ratios.normalize_row (Entries.ofList [("symbol", .str "BRK-B")])).toOption.map
      (fun r => r.find? "raw") = some none := by
  decide

/-- C8 as amended: each pipeline embeds a verbatim, unmodified copy of the
originating raw record in every output row it produces — the cash-flow
pipeline under the key `raw`, the ratios pipeline under the key `raw_data`. -/
theorem claim_c8_raw_embedded (raw r r2 : Entries)
    (hc : Cfs.normalize_row raw = .ok r) (hr : Ratios.normalize_row raw = .ok r2) :
    r.find? "raw" = some (.obj raw) ∧ r2.find? "raw_data" = some (.obj raw) := by
  constructor
  · obtain ⟨fy, rfl⟩ := cfs_normalize_ok_shape raw r hc
    simp [Entries.ofList, Entries.find?]
  · rw [ratios_normalize_eq] at hr
    by_cases h : Ratios.normalize_raises raw
    · rw [if_pos h] at hr
      simp at hr
    · rw [if_neg h] at hr
      simp only [Except.ok.injEq] at hr
      subst hr
      simp [Ratios.row_val, Entries.ofList, Entries.find?]

/-- Witness for C8 at the empty raw record. -/
theorem claim_c8_witness :
    (Cfs.normalize_row Entries.nil = .ok cfsRowOfNil ∧
     Ratios.normalize_row Entries.nil = .ok ratiosRowOfNil) ∧
    (cfsRowOfNil.find? "raw" = some (.obj Entries.nil) ∧
     ratiosRowOfNil.find? "raw_data" = some (.obj Entries.nil)) :=
  ⟨⟨by decide, by decide⟩,
    claim_c8_raw_embedded Entries.nil cfsRowOfNil ratiosRowOfNil (by decide) (by decide)⟩

/-- C9: the ratios pipeline's `reported_currency` is the raw
`reportedCurrency` defaulted to `"USD"` only when the key is absent — a
present `None` stays `None` — while the cash-flow pipeline applies no
default: its `reported_currency` is the raw value with `None` for an absent
key. -/
theorem claim_c9_reported_currency (raw r r2 : Entries)
    (hc : Cfs.normalize_row raw = .ok r) (hr : Ratios.normalize_row raw = .ok r2) :
    r2.get "reported_currency" = (raw.find? "reportedCurrency").getD (.str "USD") ∧
    r.get "reported_currency" = (raw.find? "reportedCurrency").getD .null := by
  constructor
  · rw [ratios_normalize_eq] at hr
    by_cases h : Ratios.normalize_raises raw
    · rw [if_pos h] at hr
      simp at hr
    · rw [if_neg h] at hr
      simp only [Except.ok.injEq] at hr
      subst hr
      simp [Ratios.row_val, Entries.ofList, Entries.get, Entries.getD, Entries.find?]
  · obtain ⟨fy, rfl⟩ := cfs_normalize_ok_shape raw r hc
    simp [Entries.ofList, Entries.get, Entries.getD, Entries.find?]

/-- Witness for C9 at the empty raw record (key absent: `"USD"` in the
ratios row, `None` in the cash-flow row). -/
theorem claim_c9_witness :
    (Cfs.normalize_row Entries.nil = .ok cfsRowOfNil ∧
     Ratios.normalize_row Entries.nil = .ok ratiosRowOfNil) ∧
    (ratiosRowOfNil.get "reported_currency" =
       (Entries.nil.find? "reportedCurrency").getD (.str "USD") ∧
     cfsRowOfNil.get "reported_currency" =
       (Entries.nil.find? "reportedCurrency").getD .null) :=
  ⟨⟨by decide, by decide⟩,
    claim_c9_reported_currency Entries.nil cfsRowOfNil ratiosRowOfNil (by decide) (by decide)⟩

/-- C10: the filter tests `symbol` and `date` by Python truthiness, not by
presence-and-non-empty-string: a row is retained exactly when it occurs in
the input and both fields are truthy; concretely, rows whose `symbol` is
`False` are dropped although "present and non-empty", and rows whose fields
are truthy non-strings are retained. -/
theorem claim_c10_filter_truthiness (rows : List Entries) (r : Entries) :
    (r ∈ filter_rows rows ↔
      r ∈ rows ∧ pyTruthy (r.get "symbol") = true ∧ pyTruthy (r.get "date") = true) ∧
    filter_rows [rowFalseSym] = [] ∧ spec_keep_row rowFalseSym = true ∧
    filter_rows [rowIntSym] = [rowIntSym] ∧ spec_keep_row rowIntSym = true := by
  refine ⟨?_, by decide, by decide, by decide, by decide⟩
  simp [filter_rows, List.mem_filter, keep_row, Bool.and_eq_true, and_assoc]
